import Mathlib

/-!
Verification of the Space-Weather Event Correlation Model of
`space_weather_timeline.py`: record normalization, the identifier-to-event
index, link resolution (pairs and chains), and summary aggregation.

Timestamps are modelled as integers (seconds since an epoch), matching the
use of `datetime` values only through subtraction and `total_seconds()`.
Elapsed durations in hours are exact rationals where the source uses
floating point; none of the verified properties depend on rounding.
-/

/-- The `SpaceEvent` dataclass: one normalized space-weather event. -/
structure SpaceEvent where
  event_id : String
  event_type : String
  start_time : Int
  end_time : Option Int
  intensity : String
  linked_events : List String
deriving DecidableEq, Repr

/-- Python dictionary assignment `d[k] = v` on an association list:
replaces the value at an existing key in place, otherwise appends. -/
def dictSet (d : List (String × SpaceEvent)) (k : String) (v : SpaceEvent) :
    List (String × SpaceEvent) :=
  match d with
  | [] => [(k, v)]
  | (k', v') :: rest =>
      if k' = k then (k, v) :: rest else (k', v') :: dictSet rest k v

/-- Python dictionary lookup `d[k]` (with `k in d` modelled as `≠ none`). -/
def dictGet (d : List (String × SpaceEvent)) (k : String) : Option SpaceEvent :=
  match d with
  | [] => none
  | (k', v) :: rest => if k' = k then some v else dictGet rest k

/-- The dict comprehension `{e.event_id: e for e in events}` used to build
the cross-reference index `all_events`. -/
def buildAllEvents (events : List SpaceEvent) : List (String × SpaceEvent) :=
  events.foldl (fun d e => dictSet d e.event_id e) []

/-- The body of the inner loop of the travel-time computation in
`print_event_summary`: one `linked_id` of a CME either contributes
`(linked.start_time - event.start_time) / 3600` hours (when it resolves to a
GST event) or nothing. -/
def gstTravelTimeFor (all_events : List (String × SpaceEvent))
    (event : SpaceEvent) (linked_id : String) : Option ℚ :=
  match dictGet all_events linked_id with
  | some linked =>
      if linked.event_type = "GST" then
        some (((linked.start_time - event.start_time : ℤ) : ℚ) / 3600)
      else none
  | none => none

/-- All travel-time contributions of one CME event, in link order. -/
def cmeTravelTimes (all_events : List (String × SpaceEvent))
    (event : SpaceEvent) : List ℚ :=
  event.linked_events.filterMap (gstTravelTimeFor all_events event)

/-- The `travel_times` list of `print_event_summary`. -/
def travelTimes (flares cmes storms : List SpaceEvent) : List ℚ :=
  cmes.flatMap (cmeTravelTimes (buildAllEvents (flares ++ cmes ++ storms)))

/-- The average CME-to-Earth travel time of `print_event_summary`:
`sum(travel_times) / len(travel_times)`, printed only when `travel_times`
is non-empty (modelled as `none` otherwise). -/
def avgTravelTime (flares cmes storms : List SpaceEvent) : Option ℚ :=
  let tt := travelTimes flares cmes storms
  if tt = [] then none else some (tt.sum / (tt.length : ℚ))

/-- The quantities `print_event_summary` reports: the three counts and the
optional average travel time. -/
structure EventSummary where
  flrCount : Nat
  cmeCount : Nat
  gstCount : Nat
  avgCmeToEarthHours : Option ℚ
deriving DecidableEq, Repr

def printEventSummary (flares cmes storms : List SpaceEvent) : EventSummary :=
  { flrCount := flares.length
    cmeCount := cmes.length
    gstCount := storms.length
    avgCmeToEarthHours := avgTravelTime flares cmes storms }

/-- The body of the connection loop in `create_timeline_chart`: a `linked_id`
of a flare or CME event yields a drawn connection exactly when it resolves
and the target's type is in `["GST", "CME"]`; the third component is the
travel time `linked_event.start_time - event.start_time` in seconds. -/
def connectionFor (all_events : List (String × SpaceEvent))
    (event : SpaceEvent) (linked_id : String) :
    Option (SpaceEvent × SpaceEvent × Int) :=
  match dictGet all_events linked_id with
  | some linked_event =>
      if linked_event.event_type = "GST" ∨ linked_event.event_type = "CME" then
        some (event, linked_event, linked_event.start_time - event.start_time)
      else none
  | none => none

/-- All connections drawn for one source event, in link order. -/
def eventConnections (all_events : List (String × SpaceEvent))
    (event : SpaceEvent) : List (SpaceEvent × SpaceEvent × Int) :=
  event.linked_events.filterMap (connectionFor all_events event)

/-- The linked pairs drawn by `create_timeline_chart`: iterate
`flares + cmes`, resolve each `linked_id` through `all_events`. -/
def timelineConnections (flares cmes storms : List SpaceEvent) :
    List (SpaceEvent × SpaceEvent × Int) :=
  (flares ++ cmes).flatMap (eventConnections (buildAllEvents (flares ++ cmes ++ storms)))

/-- Innermost loop of the chain search in `create_pairwise_flr_gst`: a
`gst_id` of a linked CME yields a chain exactly when it resolves to a GST. -/
def chainGstFor (all_events : List (String × SpaceEvent))
    (flare cme : SpaceEvent) (gst_id : String) :
    Option (SpaceEvent × SpaceEvent × SpaceEvent) :=
  match dictGet all_events gst_id with
  | some gst => if gst.event_type = "GST" then some (flare, cme, gst) else none
  | none => none

/-- Middle loop of the chain search: a `cme_id` of a flare contributes a
chain per resolved GST link of the CME it resolves to, or nothing. -/
def chainsForLink (all_events : List (String × SpaceEvent))
    (flare : SpaceEvent) (cme_id : String) :
    List (SpaceEvent × SpaceEvent × SpaceEvent) :=
  match dictGet all_events cme_id with
  | some cme =>
      if cme.event_type = "CME" then
        cme.linked_events.filterMap (chainGstFor all_events flare cme)
      else []
  | none => []

/-- The `full_chains` list of `create_pairwise_flr_gst`: flares in the outer
loop, each flare's linked CMEs in the inner loop. -/
def fullChains (flares cmes storms : List SpaceEvent) :
    List (SpaceEvent × SpaceEvent × SpaceEvent) :=
  flares.flatMap (fun flare =>
    flare.linked_events.flatMap
      (chainsForLink (buildAllEvents (flares ++ cmes ++ storms)) flare))

/-- One entry of a raw CME record's `cmeAnalyses` array; `speed` and `type`
are read with `.get(..., default)`, so both are optional. -/
structure CmeAnalysis where
  speed : Option Int
  cme_type : Option String
deriving DecidableEq, Repr

/-- A raw CME record as consumed by `fetch_cme`. `startTime = some t` models
a present, well-formed `startTime` field parsing to timestamp `t`; `none`
models a missing or malformed field (where the source raises). Each
`linkedEvents` entry is its optional `activityID` field. -/
structure RawCME where
  activityID : String
  startTime : Option Int
  cmeAnalyses : Option (List CmeAnalysis)
  linkedEvents : Option (List (Option String))
deriving DecidableEq, Repr

/-- `[e.get("activityID", "") for e in record["linkedEvents"]]`, with a
falsy (`None` or empty) `linkedEvents` giving `[]`. -/
def rawLinks (linkedEvents : Option (List (Option String))) : List String :=
  match linkedEvents with
  | some l => l.map (fun o => o.getD "")
  | none => []

/-- CME intensity: `"<type> (<speed> km/s)"` from `cmeAnalyses[0]` when the
array is truthy (present and non-empty), else `"N/A"`. -/
def cmeIntensity (analyses : Option (List CmeAnalysis)) : String :=
  match analyses with
  | some (analysis :: _) =>
      (analysis.cme_type.getD "Unknown") ++ " (" ++
        toString (analysis.speed.getD 0) ++ " km/s)"
  | _ => "N/A"

/-- Normalization of one raw CME record in `fetch_cme`; `none` models the
exception raised on a missing or malformed `startTime`. -/
def normCME (cme : RawCME) : Option SpaceEvent :=
  match cme.startTime with
  | none => none
  | some start =>
      some { event_id := cme.activityID
             event_type := "CME"
             start_time := start
             end_time := none
             intensity := cmeIntensity cme.cmeAnalyses
             linked_events := rawLinks cme.linkedEvents }

/-- The normalization loop of `fetch_cme` over a decoded payload; a failing
record aborts the whole batch, as the uncaught exception does. -/
def fetchCmeEvents : List RawCME → Option (List SpaceEvent)
  | [] => some []
  | cme :: rest =>
      match normCME cme, fetchCmeEvents rest with
      | some e, some es => some (e :: es)
      | _, _ => none

/-- One entry of a raw GST record's `allKpIndex` array; `kpIndex` is read
with `.get`, so it is optional. -/
structure KpReading where
  kpIndex : Option Int
deriving DecidableEq, Repr

/-- A raw GST record as consumed by `fetch_geomagnetic_storms`. -/
structure RawGST where
  gstID : String
  startTime : Option Int
  allKpIndex : Option (List KpReading)
  linkedEvents : Option (List (Option String))
deriving DecidableEq, Repr

/-- Python `max(best :: l, key=key)`: the current best is replaced only when
a strictly greater key appears, so the first maximum wins ties. -/
def maxByKey (key : KpReading → Int) (best : KpReading) :
    List KpReading → KpReading
  | [] => best
  | x :: rest =>
      if key best < key x then maxByKey key x rest else maxByKey key best rest

/-- The key `lambda x: x.get("kpIndex", 0)` of the `max` call. -/
def kpKey (x : KpReading) : Int := x.kpIndex.getD 0

/-- `max_kp.get('kpIndex', 'N/A')` as interpolated into the intensity. -/
def kpDisplay (x : KpReading) : String :=
  match x.kpIndex with
  | some v => toString v
  | none => "N/A"

/-- `max_kp = max(storm["allKpIndex"], key=lambda x: x.get("kpIndex", 0))`
on a non-empty reading list. -/
def stormMaxKp (r : KpReading) (rest : List KpReading) : KpReading :=
  maxByKey kpKey r rest

/-- Storm intensity: `"Kp <value>"` from the maximum reading when
`allKpIndex` is truthy (present and non-empty), else `"Unknown"`. -/
def gstIntensity (readings : Option (List KpReading)) : String :=
  match readings with
  | some (r :: rest) => "Kp " ++ kpDisplay (stormMaxKp r rest)
  | _ => "Unknown"

/-- Normalization of one raw GST record in `fetch_geomagnetic_storms`. -/
def normGST (storm : RawGST) : Option SpaceEvent :=
  match storm.startTime with
  | none => none
  | some start =>
      some { event_id := storm.gstID
             event_type := "GST"
             start_time := start
             end_time := none
             intensity := gstIntensity storm.allKpIndex
             linked_events := rawLinks storm.linkedEvents }

/-- The normalization loop of `fetch_geomagnetic_storms`. -/
def fetchGstEvents : List RawGST → Option (List SpaceEvent)
  | [] => some []
  | storm :: rest =>
      match normGST storm, fetchGstEvents rest with
      | some e, some es => some (e :: es)
      | _, _ => none

/-- Value of a digit string, most significant digit first. -/
def digitsToNat (l : List Char) : Nat :=
  l.foldl (fun acc c => 10 * acc + (c.toNat - '0'.toNat)) 0

/-- `float(...)` on a captured group matching `\d+\.?\d*`. -/
def parseDecimal (chars : List Char) : ℚ :=
  let intPart := chars.takeWhile Char.isDigit
  let fracPart :=
    match chars.drop intPart.length with
    | '.' :: fs => fs
    | _ => []
  (digitsToNat intPart : ℚ) + (digitsToNat fracPart : ℚ) / ((10 : ℚ) ^ fracPart.length)

/-- One attempted match of the pattern `Kp\s*(\d+\.?\d*)` at the head of the
character list, returning the captured group. The character classes are
disjoint, so the greedy scan is the regex semantics. -/
def matchKpAt : List Char → Option (List Char)
  | 'K' :: 'p' :: rest =>
      let afterSpace := rest.dropWhile Char.isWhitespace
      let ds := afterSpace.takeWhile Char.isDigit
      if ds = [] then none
      else
        match afterSpace.drop ds.length with
        | '.' :: rest' => some (ds ++ '.' :: rest'.takeWhile Char.isDigit)
        | _ => some ds
  | _ => none

/-- `re.search`: try the pattern at each position, leftmost match wins. -/
def searchKp : List Char → Option (List Char)
  | [] => none
  | c :: rest =>
      match matchKpAt (c :: rest) with
      | some g => some g
      | none => searchKp rest

/-- `parse_kp_index`: extract the Kp value from an intensity string, 0 when
the pattern does not occur. -/
def parse_kp_index (intensity : String) : ℚ :=
  match searchKp intensity.toList with
  | some g => parseDecimal g
  | none => 0

/-- The figures of the summary-statistics panel of `create_gst_chart`. -/
structure GstStats where
  totalStorms : Nat
  maxKp : ℚ
  minKp : ℚ
  avgKp : ℚ
  firstTime : Int
  lastTime : Int
deriving DecidableEq, Repr

/-- The summary-statistics panel of `create_gst_chart`: rendered only when
`storms` is truthy (non-empty), else the no-storms placeholder (`none`).
`kp_indices` and `times` are per-storm, so they are non-empty whenever
`storms` is, and `max`, `min` and `np.mean` are applied to non-empty
lists. -/
def gstSummaryStats (storms : List SpaceEvent) : Option GstStats :=
  match storms with
  | [] => none
  | s :: rest =>
      let kp0 := parse_kp_index s.intensity
      let kps := rest.map (fun x => parse_kp_index x.intensity)
      let t0 := s.start_time
      let ts := rest.map (fun x => x.start_time)
      some { totalStorms := (s :: rest).length
             maxKp := kps.foldl max kp0
             minKp := kps.foldl min kp0
             avgKp := (kp0 :: kps).sum / (((kp0 :: kps).length : ℚ))
             firstTime := ts.foldl min t0
             lastTime := ts.foldl max t0 }

/-- A CME whose single link points at a storm that starts two hours before
it: the linked pair has elapsed duration -2 hours. -/
def cmeNeg : SpaceEvent := ⟨"C1", "CME", 7200, none, "N/A", ["G1"]⟩

def gstNeg : SpaceEvent := ⟨"G1", "GST", 0, none, "Kp 7", []⟩

def analysisFirst : CmeAnalysis := ⟨some 500, some "S"⟩

/-- A later analysis with a higher speed than the first. -/
def analysisSecond : CmeAnalysis := ⟨some 900, some "R"⟩

def rawCmeTwoAnalyses : RawCME :=
  ⟨"C1", some 3600, some [analysisFirst, analysisSecond], some [some "G1"]⟩

def cmeTwoAnalysesEvent : SpaceEvent :=
  ⟨"C1", "CME", 3600, none, "S (500 km/s)", ["G1"]⟩

def kpR0 : KpReading := ⟨some 5⟩

def kpR1 : KpReading := ⟨some 7⟩

def kpR2 : KpReading := ⟨some 7⟩

def kpR3 : KpReading := ⟨some 3⟩

/-- A raw storm whose Kp readings contain a tied maximum. -/
def rawGstTie : RawGST := ⟨"G1", some 7200, some [kpR0, kpR1, kpR2, kpR3], none⟩

def gstTieEvent : SpaceEvent := ⟨"G1", "GST", 7200, none, "Kp 7", []⟩

/-- A CME linking to another CME rather than to a storm. -/
def cmeSrc : SpaceEvent := ⟨"CA", "CME", 0, none, "N/A", ["CB"]⟩

def cmeTgt : SpaceEvent := ⟨"CB", "CME", 3600, none, "N/A", []⟩

def f1w : SpaceEvent := ⟨"F1", "FLR", 0, some 600, "X1.0", ["C1"]⟩

def f2w : SpaceEvent := ⟨"F2", "FLR", 100, none, "M2.0", ["C1"]⟩

def c1w : SpaceEvent := ⟨"C1", "CME", 3600, none, "S (800 km/s)", ["G1"]⟩

def g1w : SpaceEvent := ⟨"G1", "GST", 50000, none, "Kp 7", []⟩

def e7w : SpaceEvent := ⟨"C9", "CME", 0, none, "N/A", ["X"]⟩

def flr0 : SpaceEvent := ⟨"F0", "FLR", 0, none, "M1.5", []⟩

def cme0 : SpaceEvent := ⟨"C0", "CME", 3600, none, "S (500 km/s)", []⟩

def gst0 : SpaceEvent := ⟨"G0", "GST", 7200, none, "Kp 5", []⟩

def rawCme9 : RawCME := ⟨"C5", some 100, none, none⟩

def cme9ev : SpaceEvent := ⟨"C5", "CME", 100, none, "N/A", []⟩

def rawGst9 : RawGST := ⟨"G5", some 200, none, none⟩

def gst9ev : SpaceEvent := ⟨"G5", "GST", 200, none, "Unknown", []⟩

def gstDupTarget : SpaceEvent := ⟨"GD", "GST", 0, none, "Kp 5", []⟩

/-- A CME whose links name the same storm twice. -/
def cmeDup : SpaceEvent := ⟨"CD", "CME", -3600, none, "N/A", ["GD", "GD"]⟩

theorem dictGet_dictSet (d : List (String × SpaceEvent)) (k : String)
    (v : SpaceEvent) (k' : String) :
    dictGet (dictSet d k v) k' = if k = k' then some v else dictGet d k' := by
  induction d with
  | nil => simp [dictSet, dictGet]
  | cons p rest ih =>
      obtain ⟨k₀, v₀⟩ := p
      by_cases h₀ : k₀ = k
      · subst h₀
        by_cases h₁ : k₀ = k'
        · subst h₁; simp [dictSet, dictGet]
        · simp [dictSet, dictGet, h₁]
      · by_cases h₁ : k₀ = k'
        · subst h₁
          have : ¬ k = k₀ := fun h => h₀ h.symm
          simp [dictSet, dictGet, h₀, this]
        · simp [dictSet, dictGet, h₀, h₁, ih]

theorem dictGet_foldl (l : List SpaceEvent) (d₀ : List (String × SpaceEvent))
    (k : String) :
    dictGet (l.foldl (fun d e => dictSet d e.event_id e) d₀) k =
      match l.reverse.find? (fun e => e.event_id == k) with
      | some e => some e
      | none => dictGet d₀ k := by
  induction l generalizing d₀ with
  | nil => simp
  | cons e rest ih =>
      rw [List.foldl_cons, ih, List.reverse_cons, List.find?_append]
      cases hfind : rest.reverse.find? (fun e => e.event_id == k) with
      | some x => simp [Option.orElse]
      | none =>
          by_cases h : e.event_id = k
          · simp [Option.orElse, List.find?, h, dictGet_dictSet]
          · have hb : (e.event_id == k) = false := by simp [h]
            simp [Option.orElse, List.find?, h, hb, dictGet_dictSet]

/-- C5: the cross-reference index maps each identifier to the event inserted
for it, merging flares, CMEs and storms into one keyspace in that insertion
order; on identifier collision (including across types) the later-inserted
event wins, and an identifier absent from all three lists is not found. -/
theorem index_lookup_last_insert_wins (flares cmes storms : List SpaceEvent)
    (k : String) :
    dictGet (buildAllEvents (flares ++ cmes ++ storms)) k =
      (flares ++ cmes ++ storms).reverse.find? (fun e => e.event_id == k) := by
  rw [buildAllEvents, dictGet_foldl]
  cases h : (flares ++ cmes ++ storms).reverse.find? (fun e => e.event_id == k) <;>
    simp [dictGet]

/-- C8: aggregation over empty event lists yields count 0 per type, no
average travel time, and no storm statistics; with events present but no
resolved linked pairs the average is likewise absent. All functions are
total, so no runtime failure occurs. -/
theorem empty_aggregation_graceful :
    printEventSummary [] [] [] = ⟨0, 0, 0, none⟩ ∧
    gstSummaryStats [] = none ∧
    printEventSummary [flr0] [cme0] [gst0] = ⟨1, 1, 1, none⟩ := by
  decide

/-- C1 counterexample: `print_event_summary` includes a resolved CME-to-Storm
pair whose elapsed duration is negative (-2 hours) in the travel-time list
and in the reported average, with no flag and no exclusion, so the claim
that such pairs are reported as inconsistencies rather than silently
averaged is false on the code. -/
theorem negative_travel_time_included_cex :
    travelTimes [] [cmeNeg] [gstNeg] = [(-2 : ℚ)] ∧
    avgTravelTime [] [cmeNeg] [gstNeg] = some (-2) ∧ ((-2 : ℚ) < 0) := by
  have h1 : travelTimes [] [cmeNeg] [gstNeg] = [(-2 : ℚ)] := by
    simp [travelTimes, cmeTravelTimes, gstTravelTimeFor, buildAllEvents,
      dictSet, dictGet, cmeNeg, gstNeg]
    norm_num
  refine ⟨h1, ?_, by norm_num⟩
  rw [avgTravelTime]
  simp [h1]

/-- C1 amended: every resolved CME-to-Storm link contributes its elapsed
duration `(target.start - source.start) / 3600` hours to the travel-time
list and to the average, regardless of sign; negative durations are
silently included, neither flagged nor excluded. -/
theorem travel_time_includes_negative_durations (c g : SpaceEvent)
    (hg : g.event_type = "GST") (hl : c.linked_events = [g.event_id])
    (hne : c.event_id ≠ g.event_id) :
    travelTimes [] [c] [g] =
      [((g.start_time - c.start_time : ℤ) : ℚ) / 3600] ∧
    avgTravelTime [] [c] [g] =
      some (((g.start_time - c.start_time : ℤ) : ℚ) / 3600) := by
  have htt : travelTimes [] [c] [g] =
      [((g.start_time - c.start_time : ℤ) : ℚ) / 3600] := by
    simp [travelTimes, cmeTravelTimes, gstTravelTimeFor, buildAllEvents,
      dictSet, dictGet, hl, hg, hne]
  refine ⟨htt, ?_⟩
  rw [avgTravelTime]
  simp [htt]

/-- Witness for C1's amended theorem at a pair whose storm starts two hours
before its CME. -/
theorem travel_time_includes_negative_durations_witness :
    travelTimes [] [cmeNeg] [gstNeg] =
      [((gstNeg.start_time - cmeNeg.start_time : ℤ) : ℚ) / 3600] ∧
    avgTravelTime [] [cmeNeg] [gstNeg] =
      some (((gstNeg.start_time - cmeNeg.start_time : ℤ) : ℚ) / 3600) :=
  travel_time_includes_negative_durations cmeNeg gstNeg rfl rfl (by decide)

/-- C10: each occurrence of a linked identifier in a CME's links list
contributes its own term: `n` occurrences of an identifier resolving to a
storm produce `n` equal entries in the travel-time list, not one. -/
theorem duplicate_link_counted_per_occurrence
    (idx : List (String × SpaceEvent)) (e g : SpaceEvent) (gid : String)
    (n : Nat) (hres : dictGet idx gid = some g) (hg : g.event_type = "GST")
    (hl : e.linked_events = List.replicate n gid) :
    cmeTravelTimes idx e =
      List.replicate n (((g.start_time - e.start_time : ℤ) : ℚ) / 3600) := by
  have hf : gstTravelTimeFor idx e gid =
      some (((g.start_time - e.start_time : ℤ) : ℚ) / 3600) := by
    simp [gstTravelTimeFor, hres, hg]
  unfold cmeTravelTimes
  rw [hl]
  clear hl
  induction n with
  | zero => simp
  | succ n ih =>
      simp [List.replicate_succ, List.filterMap_cons, hf, ih]

/-- Witness for C10 at a CME naming the same storm twice: two entries. -/
theorem duplicate_link_counted_per_occurrence_witness :
    dictGet [("GD", gstDupTarget)] "GD" = some gstDupTarget ∧
    cmeDup.linked_events = List.replicate 2 "GD" ∧
    cmeTravelTimes [("GD", gstDupTarget)] cmeDup =
      List.replicate 2
        (((gstDupTarget.start_time - cmeDup.start_time : ℤ) : ℚ) / 3600) :=
  ⟨by decide, by decide,
    duplicate_link_counted_per_occurrence [("GD", gstDupTarget)] cmeDup
      gstDupTarget "GD" 2 (by decide) rfl rfl⟩

/-- C2: the CME normalizer composes intensity from exactly the first
analysis sub-record (its type label and speed), no matter what later
sub-records contain, and yields "N/A" when the array is absent or empty. -/
theorem cme_intensity_first_analysis (cme : RawCME) (e : SpaceEvent)
    (h : normCME cme = some e) :
    (∀ analysis rest, cme.cmeAnalyses = some (analysis :: rest) →
       e.intensity = (analysis.cme_type.getD "Unknown") ++ " (" ++
         toString (analysis.speed.getD 0) ++ " km/s)") ∧
    (cme.cmeAnalyses = none ∨ cme.cmeAnalyses = some [] →
       e.intensity = "N/A") := by
  have he : e.intensity = cmeIntensity cme.cmeAnalyses := by
    unfold normCME at h
    cases hs : cme.startTime with
    | none => rw [hs] at h; cases h
    | some t =>
        rw [hs] at h
        injection h with h'
        subst h'
        rfl
  constructor
  · intro analysis rest ha
    rw [he, ha]
    rfl
  · rintro (ha | ha) <;> rw [he, ha] <;> rfl

/-- Witness for C2 at a raw CME with two analyses, the second faster: the
intensity is built from the first. -/
theorem cme_intensity_first_analysis_witness :
    normCME rawCmeTwoAnalyses = some cmeTwoAnalysesEvent ∧
    rawCmeTwoAnalyses.cmeAnalyses = some [analysisFirst, analysisSecond] ∧
    analysisFirst.speed.getD 0 < analysisSecond.speed.getD 0 ∧
    cmeTwoAnalysesEvent.intensity =
      (analysisFirst.cme_type.getD "Unknown") ++ " (" ++
        toString (analysisFirst.speed.getD 0) ++ " km/s)" :=
  ⟨by decide, by decide, by decide,
    (cme_intensity_first_analysis rawCmeTwoAnalyses cmeTwoAnalysesEvent
      (by decide)).1 analysisFirst [analysisSecond] (by decide)⟩

theorem normCME_fields (c : RawCME) (e : SpaceEvent)
    (h : normCME c = some e) :
    e.event_type = "CME" ∧ e.end_time = none ∧
      c.startTime = some e.start_time := by
  unfold normCME at h
  cases hs : c.startTime with
  | none => rw [hs] at h; cases h
  | some t =>
      rw [hs] at h
      injection h with h'
      subst h'
      exact ⟨rfl, rfl, rfl⟩

theorem normGST_fields (s : RawGST) (e : SpaceEvent)
    (h : normGST s = some e) :
    e.event_type = "GST" ∧ e.end_time = none ∧
      s.startTime = some e.start_time := by
  unfold normGST at h
  cases hs : s.startTime with
  | none => rw [hs] at h; cases h
  | some t =>
      rw [hs] at h
      injection h with h'
      subst h'
      exact ⟨rfl, rfl, rfl⟩

theorem fetchCme_mem (data : List RawCME) (es : List SpaceEvent)
    (h : fetchCmeEvents data = some es) :
    ∀ e ∈ es, e.event_type = "CME" ∧ e.end_time = none ∧
      ∃ raw ∈ data, raw.startTime = some e.start_time := by
  induction data generalizing es with
  | nil =>
      intro e he
      simp only [fetchCmeEvents, Option.some.injEq] at h
      subst h
      cases he
  | cons c rest ih =>
      intro e he
      unfold fetchCmeEvents at h
      cases hc : normCME c with
      | none => rw [hc] at h; cases h
      | some e0 =>
          cases hr : fetchCmeEvents rest with
          | none => rw [hc, hr] at h; cases h
          | some es0 =>
              rw [hc, hr] at h
              injection h with h'
              subst h'
              rcases List.mem_cons.mp he with rfl | hmem
              · obtain ⟨h1, h2, h3⟩ := normCME_fields c e hc
                exact ⟨h1, h2, c, List.mem_cons_self c rest, h3⟩
              · obtain ⟨h1, h2, raw, hraw, h3⟩ := ih es0 hr e hmem
                exact ⟨h1, h2, raw, List.mem_cons_of_mem c hraw, h3⟩

theorem fetchGst_mem (data : List RawGST) (es : List SpaceEvent)
    (h : fetchGstEvents data = some es) :
    ∀ e ∈ es, e.event_type = "GST" ∧ e.end_time = none ∧
      ∃ raw ∈ data, raw.startTime = some e.start_time := by
  induction data generalizing es with
  | nil =>
      intro e he
      simp only [fetchGstEvents, Option.some.injEq] at h
      subst h
      cases he
  | cons c rest ih =>
      intro e he
      unfold fetchGstEvents at h
      cases hc : normGST c with
      | none => rw [hc] at h; cases h
      | some e0 =>
          cases hr : fetchGstEvents rest with
          | none => rw [hc, hr] at h; cases h
          | some es0 =>
              rw [hc, hr] at h
              injection h with h'
              subst h'
              rcases List.mem_cons.mp he with rfl | hmem
              · obtain ⟨h1, h2, h3⟩ := normGST_fields c e hc
                exact ⟨h1, h2, c, List.mem_cons_self c rest, h3⟩
              · obtain ⟨h1, h2, raw, hraw, h3⟩ := ih es0 hr e hmem
                exact ⟨h1, h2, raw, List.mem_cons_of_mem c hraw, h3⟩

/-- C9: every event a successful CME or GST batch normalization produces has
its start taken from the record's present start-time field, and its end is
`none`, by construction. -/
theorem normalizer_start_set_end_none
    (cmeData : List RawCME) (gstData : List RawGST)
    (es gs : List SpaceEvent)
    (hc : fetchCmeEvents cmeData = some es)
    (hg : fetchGstEvents gstData = some gs) :
    (∀ e ∈ es, e.event_type = "CME" ∧ e.end_time = none ∧
       ∃ raw ∈ cmeData, raw.startTime = some e.start_time) ∧
    (∀ e ∈ gs, e.event_type = "GST" ∧ e.end_time = none ∧
       ∃ raw ∈ gstData, raw.startTime = some e.start_time) :=
  ⟨fetchCme_mem cmeData es hc, fetchGst_mem gstData gs hg⟩

/-- Witness for C9 at one-record CME and GST batches. -/
theorem normalizer_start_set_end_none_witness :
    fetchCmeEvents [rawCme9] = some [cme9ev] ∧
    fetchGstEvents [rawGst9] = some [gst9ev] ∧
    ((∀ e ∈ [cme9ev], e.event_type = "CME" ∧ e.end_time = none ∧
        ∃ raw ∈ [rawCme9], raw.startTime = some e.start_time) ∧
     (∀ e ∈ [gst9ev], e.event_type = "GST" ∧ e.end_time = none ∧
        ∃ raw ∈ [rawGst9], raw.startTime = some e.start_time)) :=
  ⟨by decide, by decide,
    normalizer_start_set_end_none [rawCme9] [rawGst9] [cme9ev] [gst9ev]
      (by decide) (by decide)⟩

/-- C7: a links identifier that is not found in the index is silently
skipped: every resolution step yields nothing for it, and removing such an
identifier from an event's links leaves the event's contributed pairs
unchanged. The resolution functions are total, so no error is raised. -/
theorem dangling_link_silently_skipped
    (all_ev : List (String × SpaceEvent)) (e : SpaceEvent) (d : String)
    (h : dictGet all_ev d = none) (l₁ l₂ : List String) :
    gstTravelTimeFor all_ev e d = none ∧
    connectionFor all_ev e d = none ∧
    chainsForLink all_ev e d = [] ∧
    chainGstFor all_ev e e d = none ∧
    cmeTravelTimes all_ev { e with linked_events := l₁ ++ d :: l₂ } =
      cmeTravelTimes all_ev { e with linked_events := l₁ ++ l₂ } ∧
    eventConnections all_ev { e with linked_events := l₁ ++ d :: l₂ } =
      (l₁ ++ l₂).filterMap
        (connectionFor all_ev { e with linked_events := l₁ ++ d :: l₂ }) := by
  refine ⟨by simp [gstTravelTimeFor, h], by simp [connectionFor, h],
    by simp [chainsForLink, h], by simp [chainGstFor, h], ?_, ?_⟩
  · have hfun : gstTravelTimeFor all_ev { e with linked_events := l₁ ++ d :: l₂ } =
        gstTravelTimeFor all_ev { e with linked_events := l₁ ++ l₂ } := by
      funext lid
      simp [gstTravelTimeFor]
    have hd : gstTravelTimeFor all_ev { e with linked_events := l₁ ++ l₂ } d = none := by
      simp [gstTravelTimeFor, h]
    simp [cmeTravelTimes, hfun, List.filterMap_append, hd]
  · have hd : connectionFor all_ev { e with linked_events := l₁ ++ d :: l₂ } d = none := by
      simp [connectionFor, h]
    simp [eventConnections, List.filterMap_append, hd]

/-- Witness for C7 with an empty index and the identifier "X". -/
theorem dangling_link_silently_skipped_witness :
    dictGet [] "X" = none ∧
    (gstTravelTimeFor [] e7w "X" = none ∧
     connectionFor [] e7w "X" = none ∧
     chainsForLink [] e7w "X" = [] ∧
     chainGstFor [] e7w e7w "X" = none ∧
     cmeTravelTimes [] { e7w with linked_events := [] ++ "X" :: [] } =
       cmeTravelTimes [] { e7w with linked_events := [] ++ [] } ∧
     eventConnections [] { e7w with linked_events := [] ++ "X" :: [] } =
       ([] ++ []).filterMap
         (connectionFor [] { e7w with linked_events := [] ++ "X" :: [] })) :=
  ⟨rfl, dangling_link_silently_skipped [] e7w "X" rfl [] []⟩

/-- C4 counterexample: `create_timeline_chart` emits a linked pair whose
source is a CME and whose resolved target is another CME, so the claim that
a CME may pair only with a Storm is false on the code. -/
theorem timeline_pair_cme_to_cme_cex :
    timelineConnections [] [cmeSrc, cmeTgt] [] = [(cmeSrc, cmeTgt, 3600)] ∧
    cmeSrc.event_type = "CME" ∧ cmeTgt.event_type ≠ "GST" := by
  refine ⟨by decide, rfl, by decide⟩

/-- C4 amended: the timeline connection loop emits a linked pair only when
the source is one of the iterated flare or CME events and the identifier
resolves to a target whose type is GST or CME — with no restriction tied to
the source's own type, so a CME source may pair with another CME — and the
pair's elapsed duration is `target.start_time - source.start_time`. -/
theorem timeline_pair_target_type_delta
    (flares cmes storms : List SpaceEvent) (p : SpaceEvent × SpaceEvent × Int)
    (hp : p ∈ timelineConnections flares cmes storms) :
    p.1 ∈ flares ++ cmes ∧
    (p.2.1.event_type = "GST" ∨ p.2.1.event_type = "CME") ∧
    p.2.2 = p.2.1.start_time - p.1.start_time := by
  unfold timelineConnections at hp
  rw [List.mem_flatMap] at hp
  obtain ⟨e, he, hp⟩ := hp
  unfold eventConnections at hp
  rw [List.mem_filterMap] at hp
  obtain ⟨lid, _, hres⟩ := hp
  unfold connectionFor at hres
  split at hres
  · split at hres
    · rename_i linked hdg ht
      injection hres with hres
      subst hres
      exact ⟨he, ht, rfl⟩
    · cases hres
  · cases hres

/-- Witness for C4's amended theorem at the CME-to-CME pair. -/
theorem timeline_pair_target_type_delta_witness :
    ((cmeSrc, cmeTgt, (3600 : Int)) ∈ timelineConnections [] [cmeSrc, cmeTgt] []) ∧
    (cmeSrc ∈ ([] : List SpaceEvent) ++ [cmeSrc, cmeTgt] ∧
     (cmeTgt.event_type = "GST" ∨ cmeTgt.event_type = "CME") ∧
     (3600 : Int) = cmeTgt.start_time - cmeSrc.start_time) :=
  ⟨by decide,
    timeline_pair_target_type_delta [] [cmeSrc, cmeTgt] []
      (cmeSrc, cmeTgt, 3600) (by decide)⟩

theorem maxByKey_cons (key : KpReading → Int) (b x : KpReading)
    (rest : List KpReading) :
    maxByKey key b (x :: rest) =
      if key b < key x then maxByKey key x rest else maxByKey key b rest := rfl

theorem kpKey_le_maxByKey (key : KpReading → Int) (b : KpReading)
    (l : List KpReading) : key b ≤ key (maxByKey key b l) := by
  induction l generalizing b with
  | nil => simp [maxByKey]
  | cons x rest ih =>
      unfold maxByKey
      by_cases hx : key b < key x
      · rw [if_pos hx]
        exact le_of_lt (lt_of_lt_of_le hx (ih x))
      · rw [if_neg hx]
        exact ih b

/-- `maxByKey` returns the first maximum: the list splits around the result
with all earlier elements strictly below it and all later ones at most it. -/
theorem maxByKey_first_max (key : KpReading → Int) (b : KpReading)
    (l : List KpReading) :
    ∃ l₁ l₂, b :: l = l₁ ++ maxByKey key b l :: l₂ ∧
      (∀ x ∈ l₁, key x < key (maxByKey key b l)) ∧
      (∀ x ∈ l₂, key x ≤ key (maxByKey key b l)) := by
  induction l generalizing b with
  | nil => exact ⟨[], [], by simp [maxByKey], by simp, by simp⟩
  | cons x rest ih =>
      by_cases hx : key b < key x
      · obtain ⟨l₁, l₂, heq, h₁, h₂⟩ := ih x
        have hm : maxByKey key b (x :: rest) = maxByKey key x rest := by
          rw [maxByKey_cons, if_pos hx]
        rw [hm]
        refine ⟨b :: l₁, l₂, ?_, ?_, h₂⟩
        · simpa using heq
        · intro y hy
          rcases List.mem_cons.mp hy with rfl | hyl
          · exact lt_of_lt_of_le hx (kpKey_le_maxByKey key x rest)
          · exact h₁ y hyl
      · obtain ⟨l₁, l₂, heq, h₁, h₂⟩ := ih b
        have hm : maxByKey key b (x :: rest) = maxByKey key b rest := by
          rw [maxByKey_cons, if_neg hx]
        rw [hm]
        cases l₁ with
        | nil =>
            simp only [List.nil_append] at heq
            injection heq with hb hrest
            refine ⟨[], x :: l₂, ?_, by simp, ?_⟩
            · simp only [List.nil_append]
              rw [← hb, ← hrest]
            · intro y hy
              rcases List.mem_cons.mp hy with rfl | hyl
              · rw [← hb]
                exact le_of_not_lt hx
              · exact h₂ y hyl
        | cons b0 l₁' =>
            simp only [List.cons_append] at heq
            injection heq with hb0 hrest
            refine ⟨b :: x :: l₁', l₂, ?_, ?_, h₂⟩
            · rw [List.cons_append, List.cons_append, ← hrest]
            · intro y hy
              have hbmem : b ∈ b0 :: l₁' := by
                rw [← hb0]
                exact List.mem_cons_self b l₁'
              rcases List.mem_cons.mp hy with rfl | hy' 
              · exact h₁ y hbmem
              · rcases List.mem_cons.mp hy' with rfl | hy2
                · exact lt_of_le_of_lt (le_of_not_lt hx) (h₁ b hbmem)
                · exact h₁ y (List.mem_cons_of_mem b0 hy2)

/-- C3: a normalized storm with a non-empty reading list gets intensity
`"Kp <value>"` where the chosen reading is the first maximum of the
`kpIndex` keys (all readings before it are strictly smaller, all after it
are no larger); with no readings the intensity is `"Unknown"`. -/
theorem storm_intensity_max_kp (storm : RawGST) (e : SpaceEvent)
    (h : normGST storm = some e) :
    (∀ r rest, storm.allKpIndex = some (r :: rest) →
       e.intensity = "Kp " ++ kpDisplay (stormMaxKp r rest) ∧
       ∃ l₁ l₂, r :: rest = l₁ ++ stormMaxKp r rest :: l₂ ∧
         (∀ x ∈ l₁, kpKey x < kpKey (stormMaxKp r rest)) ∧
         (∀ x ∈ l₂, kpKey x ≤ kpKey (stormMaxKp r rest))) ∧
    (storm.allKpIndex = none ∨ storm.allKpIndex = some [] →
       e.intensity = "Unknown") := by
  have he : e.intensity = gstIntensity storm.allKpIndex := by
    unfold normGST at h
    cases hs : storm.startTime with
    | none => rw [hs] at h; cases h
    | some t =>
        rw [hs] at h
        injection h with h'
        subst h'
        rfl
  constructor
  · intro r rest ha
    refine ⟨by rw [he, ha]; rfl, ?_⟩
    exact maxByKey_first_max kpKey r rest
  · rintro (ha | ha) <;> rw [he, ha] <;> rfl

/-- Witness for C3 at a storm whose readings are 5, 7, 7, 3: the tied
maximum 7 is taken at its first occurrence and displayed as "Kp 7". -/
theorem storm_intensity_max_kp_witness :
    normGST rawGstTie = some gstTieEvent ∧
    rawGstTie.allKpIndex = some [kpR0, kpR1, kpR2, kpR3] ∧
    (gstTieEvent.intensity =
       "Kp " ++ kpDisplay (stormMaxKp kpR0 [kpR1, kpR2, kpR3]) ∧
     ∃ l₁ l₂, kpR0 :: [kpR1, kpR2, kpR3] =
         l₁ ++ stormMaxKp kpR0 [kpR1, kpR2, kpR3] :: l₂ ∧
       (∀ x ∈ l₁, kpKey x < kpKey (stormMaxKp kpR0 [kpR1, kpR2, kpR3])) ∧
       (∀ x ∈ l₂, kpKey x ≤ kpKey (stormMaxKp kpR0 [kpR1, kpR2, kpR3]))) :=
  ⟨by decide, by decide,
    (storm_intensity_max_kp rawGstTie gstTieEvent (by decide)).1
      kpR0 [kpR1, kpR2, kpR3] (by decide)⟩

/-- C6: chain derivation is order-stable: with flares `[F1, F2]` each
linking to CME `C1`, and `C1` linking to storm `G1`, exactly the two chains
`(F1, C1, G1)` then `(F2, C1, G1)` are produced, flares iterated in the
outer loop and each flare's linked CMEs in the inner loop. -/
theorem chain_derivation_order_stable (F1 F2 C1 G1 : SpaceEvent)
    (h12 : F1.event_id ≠ F2.event_id) (h1c : F1.event_id ≠ C1.event_id)
    (h1g : F1.event_id ≠ G1.event_id) (h2c : F2.event_id ≠ C1.event_id)
    (h2g : F2.event_id ≠ G1.event_id) (hcg : C1.event_id ≠ G1.event_id)
    (hCty : C1.event_type = "CME") (hGty : G1.event_type = "GST")
    (hF1l : F1.linked_events = [C1.event_id])
    (hF2l : F2.linked_events = [C1.event_id])
    (hC1l : C1.linked_events = [G1.event_id]) :
    fullChains [F1, F2] [C1] [G1] = [(F1, C1, G1), (F2, C1, G1)] := by
  have hidx : buildAllEvents [F1, F2, C1, G1] =
      [(F1.event_id, F1), (F2.event_id, F2), (C1.event_id, C1),
        (G1.event_id, G1)] := by
    simp [buildAllEvents, dictSet, h12, h1c, h1g, h2c, h2g, hcg]
  have hgetC : dictGet [(F1.event_id, F1), (F2.event_id, F2),
      (C1.event_id, C1), (G1.event_id, G1)] C1.event_id = some C1 := by
    simp [dictGet, h1c, h2c]
  have hgetG : dictGet [(F1.event_id, F1), (F2.event_id, F2),
      (C1.event_id, C1), (G1.event_id, G1)] G1.event_id = some G1 := by
    simp [dictGet, h1g, h2g, hcg]
  simp [fullChains, hidx, hF1l, hF2l, chainsForLink, hgetC, hCty, hC1l,
    chainGstFor, hgetG, hGty]

/-- Witness for C6 at four concrete events with distinct identifiers. -/
theorem chain_derivation_order_stable_witness :
    fullChains [f1w, f2w] [c1w] [g1w] = [(f1w, c1w, g1w), (f2w, c1w, g1w)] :=
  chain_derivation_order_stable f1w f2w c1w g1w (by decide) (by decide)
    (by decide) (by decide) (by decide) (by decide) rfl rfl rfl rfl rfl
